import Mathlib

/-!
Verification of the Rajniti election-results scraping pipeline
(`app/scrapers/vidhan_sabha.py` and `app/scrapers/lok_sabha.py`).

The Python code is shallowly embedded: HTML documents are modelled as
structures carrying exactly the fields the scrapers read, network fetches
(`get_with_retry`, which returns the document or `None`, never raising)
are oracle parameters of type `Option _`, and Python exceptions that the
scrapers do not catch are modelled with `Except String`.
-/

/-- Python string truthiness / emptiness helper: `l` begins with `p`. -/
def leadsWith : List Char → List Char → Bool
  | [], _ => true
  | _ :: _, [] => false
  | c :: cs, d :: ds => c == d && leadsWith cs ds

/-- First occurrence of substring `sep` in `s`: returns the part before and
the part after the first occurrence, or `none` when `sep` does not occur.
This is the semantics of Python `s.split(sep, 1)` / `sep in s`. -/
def findSub (sep : List Char) : List Char → Option (List Char × List Char)
  | [] => if leadsWith sep [] then some ([], []) else none
  | c :: t =>
    if leadsWith sep (c :: t) then some ([], (c :: t).drop sep.length)
    else
      match findSub sep t with
      | none => none
      | some (b, a) => some (c :: b, a)

/-- `sep` occurs somewhere in `s` (Python `sep in s`). -/
def hasSub (sep s : List Char) : Bool := (findSub sep s).isSome

/-- Python `str.strip()`: leading and trailing whitespace removed. -/
def pyStripL (l : List Char) : List Char :=
  ((l.dropWhile Char.isWhitespace).reverse.dropWhile Char.isWhitespace).reverse

/-- Python `str.strip()` on a string. -/
def pyStrip (s : String) : String := ⟨pyStripL s.data⟩

/-- Python `str.upper()` (the scraped texts are ASCII). -/
def pyUpper (s : String) : String := ⟨s.data.map Char.toUpper⟩

/-- Python `str.lower()` (the scraped texts are ASCII). -/
def pyLower (s : String) : String := ⟨s.data.map Char.toLower⟩

/-- Digit run to number, for Python `int` on an all-digit string. -/
def digitsToNat (l : List Char) : Nat :=
  l.foldl (fun n c => 10 * n + (c.toNat - 48)) 0

/-- Python `str.isdigit`: non-empty and all digits. -/
def pyIsDigit (s : String) : Bool :=
  !s.data.isEmpty && s.data.all Char.isDigit

/-- Python `int(s)`: surrounding whitespace stripped, optional single sign,
then a non-empty digit run; anything else raises `ValueError` (`none`). -/
def pyIntOpt (s : String) : Option Int :=
  match pyStripL s.data with
  | [] => none
  | '+' :: rest =>
    if !rest.isEmpty && rest.all Char.isDigit then some (digitsToNat rest) else none
  | '-' :: rest =>
    if !rest.isEmpty && rest.all Char.isDigit then some (-(digitsToNat rest : Int)) else none
  | l =>
    if l.all Char.isDigit then some (digitsToNat l) else none

/-- Python `s.split(c)[0]`: everything before the first occurrence of the
character `c` (the whole string when `c` is absent). -/
def beforeChar (c : Char) (s : String) : String :=
  ⟨s.data.takeWhile (fun d => d ≠ c)⟩

/-- Removes every occurrence of the given characters
(chained Python `str.replace(ch, "")` calls). -/
def removeChars (bad : List Char) (s : String) : String :=
  ⟨s.data.filter (fun c => !(bad.contains c))⟩

/-- `link.split("-")[-1].split(".")[0]`: the part of a link after the last
dash and before the following dot, used to pull a code out of an href. -/
def linkCode (s : String) : String :=
  ⟨((s.data.reverse.takeWhile (fun c => c ≠ '-')).reverse).takeWhile (fun c => c ≠ '.')⟩

/-- Python `s[:-3]`: all but the last three characters. -/
def pyDropLast3 (s : String) : String := ⟨s.data.take (s.data.length - 3)⟩

/-- Python `s[-3:]`: the last three characters. -/
def pyTakeLast3 (s : String) : String := ⟨s.data.drop (s.data.length - 3)⟩

/-- Python `f"{x}"` on an `Optional[str]`: `None` prints as `"None"`. -/
def pyStr : Option String → String
  | none => "None"
  | some s => s

/-- The `" - "` delimiter both scrapers split party display strings on. -/
def dashSep : List Char := [' ', '-', ' ']

/-- `vidhan_sabha.py` lines 340-344 and `lok_sabha.py` lines 171-175:
`full.split(" - ", 1)` when the delimiter occurs, else `(full, "")`. -/
def splitNameSymbol (full : String) : String × String :=
  match findSub dashSep full.data with
  | some (b, a) => (⟨b⟩, ⟨a⟩)
  | none => (full, "")

/-- `lok_sabha.py` lines 227-228: `full.split(" - ")[0]` and
`full.split(" - ")[1]`; the `[1]` raises `IndexError` when the delimiter
is absent.  `parts[1]` is the piece between the first and second
occurrence of the delimiter. -/
def lokDiscoverSplit (full : String) : Except String (String × String) :=
  match findSub dashSep full.data with
  | none => .error ("IndexError: list index out of range")
  | some (b, a) =>
    match findSub dashSep a with
    | none => .ok (⟨b⟩, ⟨a⟩)
    | some (b2, _) => .ok (⟨b⟩, ⟨b2⟩)

/-! ## Vidhan Sabha scraper data model (`app/scrapers/vidhan_sabha.py`) -/

/-- A party record as appended to `parties.json`
(`_discover_parties_details`, lines 353-360). -/
structure VParty where
  id : String
  name : String
  short_name : String
  symbol : String
deriving DecidableEq, Repr

/-- The four td cells of one index-table row that the party discovery
reads: the optional anchor text and plain text of `cols[0]`, the href of
the anchor in `cols[1]` (a row lacking that anchor would raise an
uncaught `TypeError` in Python and is not modelled), and the text of
`cols[3]`. -/
structure PartyCols where
  col0a : Option String
  col0text : String
  col1href : String
  col3text : String
deriving DecidableEq, Repr

/-- One `tr` of the index table; `cols = none` models a row with fewer
than four `td` cells (e.g. the header), which the loop skips. -/
structure PartyRow where
  cols : Option PartyCols
deriving DecidableEq, Repr

/-- The `h2` (state title) and `h1` (year heading) texts inside the
page-title block.  `none` models a missing tag; for the `h2` it also
models an empty tag, since an empty bs4 tag is falsy like `None`. -/
structure TitleBlock where
  h2 : Option String
  h1 : Option String
deriving DecidableEq, Repr

/-- The `main` element; `pageTitle = none` models a `main` without a
`div.page-title` child. -/
structure MainBlock where
  pageTitle : Option TitleBlock
deriving DecidableEq, Repr

/-- The fetched `index.htm`: the `main` element (used by
`_detect_state_info`) and the first `table`'s rows, header included
(used by `_discover_parties_details`). -/
structure IndexDoc where
  mainTag : Option MainBlock
  table : Option (List PartyRow)
deriving DecidableEq, Repr

/-- A constituency record as appended to `constituencies.json`. -/
structure VConst where
  id : String
  name : String
  state_id : String
deriving DecidableEq, Repr

/-- The composite key `f"{state_id}{constituency_id}"` used by the
per-call dedup set in `_discover_constituency_details` (line 411). -/
def vconstKey (c : VConst) : String := c.state_id ++ c.id

/-- The anchor inside `cols[1]` of a party-results row: its text and its
optional `href` attribute. -/
structure ConstATag where
  text : String
  href : Option String
deriving DecidableEq, Repr

/-- One `tbody` row of a party's win-results table.  Rows are modelled
with at least two cells (`cols[1]` is read; a one-cell row would raise an
uncaught `IndexError` in Python). -/
structure ConstRow where
  aTag : Option ConstATag
  col1text : String
deriving DecidableEq, Repr

/-- A fetched `partywisewinresult-*.htm` page; `tbodyRows = none` models
a missing `table.table` or missing `tbody` (both yield zero rows). -/
structure ConstDoc where
  tbodyRows : Option (List ConstRow)
deriving DecidableEq, Repr

/-- One child `div` of a candidate card's `div.status`: its full text and
the text of its inner `span` when present. -/
structure StatusChild where
  text : String
  span : Option String
deriving DecidableEq, Repr

/-- The `h5` (candidate name) and `h6` (party name) of a card's
`div.nme-prty`. -/
structure NmePrty where
  h5 : Option String
  h6 : Option String
deriving DecidableEq, Repr

/-- The `div.cand-info` of a candidate card. -/
structure CandInfo where
  statusDivs : Option (List StatusChild)
  nmePrty : Option NmePrty
deriving DecidableEq, Repr

/-- One `div.cand-box` candidate card.  `figureImg` is the `src` of the
image inside the `figure` when both exist. -/
structure CandBox where
  figureImg : Option String
  candInfo : Option CandInfo
deriving DecidableEq, Repr

/-- A fetched `candidateswise-*.htm` page: its candidate cards. -/
structure CandDoc where
  boxes : List CandBox
deriving DecidableEq, Repr

/-- A candidate record as appended to `candidates.json`
(`_discover_candidate_details`, lines 568-581).  The `id` field is a
fresh `uuid4` in the source; no claim depends on it and it is omitted. -/
structure VCand where
  name : String
  party_id : String
  constituency_id : String
  state_id : String
  status : String
  type : String
  image_url : Option String
  total_votes : Int
  margin : Int
deriving DecidableEq, Repr

/-! ## Vidhan Sabha discovery functions -/

/-- The state-detection table of `_detect_state_info` (lines 207-227), in
source order: alternatives of each regex pattern, state code, state name. -/
def statePatterns : List (List String × String × String) :=
  [ (["delhi", "dl"], ("DL", "Delhi"))
  , (["maharashtra", "mh"], ("MH", "Maharashtra"))
  , (["karnataka", "ka"], ("KA", "Karnataka"))
  , (["gujarat", "gj"], ("GJ", "Gujarat"))
  , (["rajasthan", "rj"], ("RJ", "Rajasthan"))
  , (["punjab", "pb"], ("PB", "Punjab"))
  , (["haryana", "hr"], ("HR", "Haryana"))
  , (["uttarpradesh", "up"], ("UP", "Uttar Pradesh"))
  , (["bihar", "br"], ("BR", "Bihar"))
  , (["westbengal", "wb"], ("WB", "West Bengal"))
  , (["tamilnadu", "tn"], ("TN", "Tamil Nadu"))
  , (["telangana", "tg"], ("TG", "Telangana"))
  , (["andhrapradesh", "ap"], ("AP", "Andhra Pradesh"))
  , (["madhyapradesh", "mp"], ("MP", "Madhya Pradesh"))
  , (["odisha", "or"], ("OR", "Odisha"))
  , (["kerala", "kl"], ("KL", "Kerala"))
  , (["jharkhand", "jh"], ("JH", "Jharkhand"))
  , (["assam", "as"], ("AS", "Assam"))
  , (["chhattisgarh", "cg"], ("CG", "Chhattisgarh")) ]

/-- `re.search(pattern, t, re.IGNORECASE)` for an alternation of plain
lowercase keywords: some keyword occurs in the lowercased text. -/
def titleMatchesState (kws : List String) (t : String) : Bool :=
  kws.any (fun k => hasSub k.data (pyLower t).data)

/-- First entry of the state table matched by the title text. -/
def matchStateTable (t : String) : Option (String × String) :=
  (statePatterns.find? (fun e => titleMatchesState e.1 t)).map (fun e => e.2)

/-- `re.search(r"20\d{2}", s)`: the leftmost four-character token `20dd`,
as a number. -/
def findYear : List Char → Option Nat
  | [] => none
  | c :: rest =>
    match c, rest with
    | '2', '0' :: d₁ :: d₂ :: _ =>
      if d₁.isDigit && d₂.isDigit then
        some (2000 + 10 * (d₁.toNat - 48) + (d₂.toNat - 48))
      else findYear rest
    | _, _ => findYear rest

/-- Year extraction from a URL or heading text. -/
def extractYear (s : String) : Option Nat := findYear s.data

/-- `_detect_state_info` (lines 202-290).  The URL-keyword state matching
(lines 230-236) is commented out in the source, so the state is `None`
when the index page is consulted.  Because the state is always `None` at
that point, the page is always fetched.  `soup.find("main")` being `None`
or the `page-title` div being `None` raise an uncaught `AttributeError`.
The state match and the `h1` year read both sit inside `if title:`
(line 255), so when the `h2` title is absent (falsy) the whole block is
skipped and the defaults apply without ever touching the `h1`; when the
`h2` is present and the URL carried no year, `main_tag.find("h1")` being
`None` raises `AttributeError`.  Returns `((state_code, state_name), year)`. -/
def detectStateInfo (baseUrl : String) (idx? : Option IndexDoc) :
    Except String ((String × String) × Nat) :=
  let year0 := extractYear baseUrl
  match idx? with
  | none => .ok (("XX", "Unknown State"), year0.getD 2024)
  | some doc =>
    match doc.mainTag with
    | none => .error ("AttributeError")
    | some mb =>
      match mb.pageTitle with
      | none => .error ("AttributeError")
      | some pt =>
        match pt.h2 with
        | none => .ok (("XX", "Unknown State"), year0.getD 2024)
        | some t =>
          let stateRes := (matchStateTable t).getD ("XX", "Unknown State")
          match year0 with
          | some y => .ok (stateRes, y)
          | none =>
            match pt.h1 with
            | none => .error ("AttributeError")
            | some h1t => .ok (stateRes, (extractYear h1t).getD 2024)

/-- One ≥4-cell index-table row to a party record
(`_discover_parties_details` loop body, lines 325-360): the display name
comes from the `cols[0]` anchor when present, the code from the `cols[1]`
href; `party_id` is the code without its last three characters.  Rows
whose name piece is empty are skipped.  (The seats in `cols[3]` are
parsed but never stored.) -/
def vPartyOfCols (c : PartyCols) : Option VParty :=
  let full := pyStrip (match c.col0a with | some t => t | none => c.col0text)
  let code := linkCode c.col1href
  let pid := pyDropLast3 code
  let ns := splitNameSymbol full
  if ns.1.data.isEmpty then none
  else some ⟨pid, pyStrip ns.1, pyStrip ns.2, ""⟩

/-- `_discover_parties_details` (lines 304-365): `None` when the index
fetch fails or the page has no table (the bare `return`); otherwise the
party list plus `self.state_id`, the last three characters of the first
≥4-cell row's code. -/
def discoverPartiesVidhan (doc? : Option IndexDoc) :
    Option (List VParty) × Option String :=
  match doc? with
  | none => (none, none)
  | some doc =>
    match doc.table with
    | none => (none, none)
    | some trs =>
      let step := (trs.drop 1).foldl
        (fun (acc : List VParty × Option String) r =>
          match r.cols with
          | none => acc
          | some c =>
            let st := pyTakeLast3 (linkCode c.col1href)
            let st2 := match acc.2 with | none => some st | some s => some s
            match vPartyOfCols c with
            | none => (acc.1, st2)
            | some p => (acc.1 ++ [p], st2)) ([], none)
      (some step.1, step.2)

/-- `_scrape_parties` (lines 292-302): passes the discovered list through,
but turns an empty list (and `None`) into a bare `return`, i.e. `None`. -/
def scrapePartiesStepV : Option (List VParty) → Option (List VParty)
  | none => none
  | some [] => none
  | some l => some l

/-- One win-results row to a constituency record
(`_discover_constituency_details` loop body, lines 393-421): name before
the first `(` of the trimmed anchor (or cell) text; rows without an href
are skipped; the code after the last dash of the href splits into a
3-character state id and the local id. -/
def constOfRow (r : ConstRow) : Option VConst :=
  let nameSrc := match r.aTag with | some a => a.text | none => r.col1text
  let cname := beforeChar '(' (pyStrip nameSrc)
  let link? := match r.aTag with | some a => a.href | none => none
  match link? with
  | none => none
  | some link =>
    let scid := linkCode link
    some ⟨⟨scid.data.drop 3⟩, cname, ⟨scid.data.take 3⟩⟩

/-- The dedup step of `_discover_constituency_details`: skip rows whose
composite key is already in the per-call `seen_constituencies` set,
otherwise append the record and its key. -/
def constAccStep (acc : List VConst × List String) (r : ConstRow) :
    List VConst × List String :=
  match constOfRow r with
  | none => acc
  | some c =>
    if acc.2.contains (vconstKey c) then acc
    else (acc.1 ++ [c], acc.2 ++ [vconstKey c])

/-- `_discover_constituency_details` (lines 372-424): empty on fetch
failure or missing table/tbody; otherwise the rows' records, deduplicated
by composite key through a set created fresh on every call (first
occurrence wins). -/
def discoverConstituenciesVidhan (doc? : Option ConstDoc) : List VConst :=
  match doc? with
  | none => []
  | some doc =>
    match doc.tbodyRows with
    | none => []
    | some rows => (rows.foldl constAccStep ([], [])).1

/-- `_get_party_id_by_name`'s per-party comparison (lines 122-123):
case-insensitive equality, after trimming, against the full name or the
short name. -/
def partyMatches (norm : String) (p : VParty) : Bool :=
  pyLower (pyStrip p.name) == norm || pyLower (pyStrip p.short_name) == norm

/-- `_get_party_id_by_name` (lines 104-127): `"UNKNOWN"` for an empty
name; otherwise the id of the first party whose full or short name
matches case-insensitively after trimming, else `"UNKNOWN"`. -/
def getPartyIdByName (parties : List VParty) (party_name : String) : String :=
  if party_name.data.isEmpty then "UNKNOWN"
  else
    match parties.find? (partyMatches (pyLower (pyStrip party_name))) with
    | some p => p.id
    | none => "UNKNOWN"

/-- Parsing of the second status div (`_discover_candidate_details`,
lines 530-548): total votes are `int` of the text before the first `(`,
stripped; on `ValueError` the handler resets both values to zero.  The
margin comes from the inner span, with `(`, `)`, `+`, `-` and spaces
removed; it is kept only when the remainder satisfies `isdigit`. -/
def parseVotesMargin (voteText : String) (span? : Option String) : Int × Int :=
  match pyIntOpt (pyStrip (beforeChar '(' voteText)) with
  | none => (0, 0)
  | some v =>
    let m : Int :=
      match span? with
      | none => 0
      | some t =>
        let raw := removeChars ['(', ')', '+', '-', ' '] t
        if pyIsDigit raw then (digitsToNat raw.data : Int) else 0
    (v, m)

/-- Status extraction (lines 516-527): the trimmed, uppercased text of
the first child div of `div.status` when there is one, else the initial
value `"UNKNOWN"`. -/
def statusOfDivs : Option (List StatusChild) → String
  | some (d :: _) => pyUpper (pyStrip d.text)
  | _ => "UNKNOWN"

/-- Votes/margin extraction: only runs when `div.status` has a second
child div (lines 530-531); otherwise both stay zero. -/
def votesOfDivs : Option (List StatusChild) → Int × Int
  | some (_ :: v :: _) => parseVotesMargin v.text v.span
  | _ => (0, 0)

/-- One candidate card to a record (`_discover_candidate_details` loop
body, lines 500-586): cards without `div.cand-info`, without
`div.nme-prty`, or without both `h5` and `h6` are skipped. -/
def parseCandBox (parties : List VParty) (state_id constituency_id : String)
    (b : CandBox) : Option VCand :=
  match b.candInfo with
  | none => none
  | some info =>
    match info.nmePrty with
    | none => none
    | some np =>
      match np.h5, np.h6 with
      | some h5t, some h6t =>
        let tvm := votesOfDivs info.statusDivs
        some { name := pyStrip h5t
             , party_id := getPartyIdByName parties (pyStrip h6t)
             , constituency_id := constituency_id
             , state_id := state_id
             , status := statusOfDivs info.statusDivs
             , type := "MP"
             , image_url := b.figureImg
             , total_votes := tvm.1
             , margin := tvm.2 }
      | _, _ => none

/-- `_discover_candidate_details` (lines 473-589): empty plus a logged
warning when the fetch fails or the page has no candidate cards;
otherwise the parsed cards. -/
def discoverCandidatesVidhan (parties : List VParty) (c : VConst)
    (doc? : Option CandDoc) : List VCand × List String :=
  match doc? with
  | none => ([], ["Could not fetch constituency page for " ++ c.name])
  | some doc =>
    if doc.boxes.isEmpty then
      ([], ["No candidate boxes found on " ++ c.name ++ " page"])
    else (doc.boxes.filterMap (parseCandBox parties c.state_id c.id), [])

/-- The inner candidate loop of `scrape` (lines 170-190) over a list of
constituencies: each constituency's page is fetched by the composite key
`f"{state_id}{constituency_id}"` and its candidates appended. -/
def candidatesStage (parties : List VParty) (fetchCand : String → Option CandDoc) :
    List VConst → List VCand × List String
  | [] => ([], [])
  | c :: cs =>
    let r := discoverCandidatesVidhan parties c (fetchCand (c.state_id ++ c.id))
    let rest := candidatesStage parties fetchCand cs
    (r.1 ++ rest.1, r.2 ++ rest.2)

/-- The per-party loop of `scrape` (lines 153-190): fetch the party's
win-results page (URL key `f"{party_id}{state_id}"`), skip the party when
no constituencies are found, otherwise append the constituencies to
`constituencies.json` and run the candidate loop.  Returns the
accumulated constituency file, candidate file, and warning log. -/
def partyLoop (parties : List VParty) (stateId? : Option String)
    (fetchParty : String → Option ConstDoc) (fetchCand : String → Option CandDoc) :
    List VParty → List VConst × List VCand × List String
  | [] => ([], [], [])
  | p :: ps =>
    let cs := discoverConstituenciesVidhan (fetchParty (p.id ++ pyStr stateId?))
    let rest := partyLoop parties stateId? fetchParty fetchCand ps
    if cs.isEmpty then
      (rest.1, rest.2.1, ("No constituencies found for " ++ p.name) :: rest.2.2)
    else
      let cands := candidatesStage parties fetchCand cs
      (cs ++ rest.1, cands.1 ++ rest.2.1, cands.2 ++ rest.2.2)

/-- The result of one Vidhan Sabha run: the three persisted collections,
the warning log, and the detected state/year. -/
structure VidhanRun where
  parties : List VParty
  constituenciesFile : List VConst
  candidatesFile : List VCand
  logs : List String
  stateCode : String
  year : Nat
deriving DecidableEq, Repr

/-- `VidhanSabhaScraper.scrape` (lines 129-200): detect the state (which
may raise), discover parties from the index page, and — because a failed
or empty discovery leaves `self.parties_data = None` — crash with a
`TypeError` at `len(self.parties_data)` (line 151) in that case;
otherwise run the party/constituency/candidate loops and report the
accumulated collections. -/
def scrapeVidhan (baseUrl : String) (fetchIdx : Option IndexDoc)
    (fetchParty : String → Option ConstDoc) (fetchCand : String → Option CandDoc) :
    Except String VidhanRun :=
  match detectStateInfo baseUrl fetchIdx with
  | .error e => .error e
  | .ok st =>
    let disc := discoverPartiesVidhan fetchIdx
    match scrapePartiesStepV disc.1 with
    | none => .error ("TypeError: object of type NoneType has no len()")
    | some parties =>
      let res := partyLoop parties disc.2 fetchParty fetchCand parties
      .ok { parties := parties
          , constituenciesFile := res.1
          , candidatesFile := res.2.1
          , logs := res.2.2
          , stateCode := st.1.1
          , year := st.2 }

/-! ## Lok Sabha scraper data model (`app/scrapers/lok_sabha.py`) -/

/-- One entry of `_discover_parties_details`'s output (lines 231-236). -/
structure LokPartyDetail where
  name : String
  short_name : String
  seats_won : String
  party_id : String
deriving DecidableEq, Repr

/-- The cells of one row of a party's win-results table that
`_scrape_parties` reads (lines 137-147): candidate name (`cols[2]`),
constituency (`cols[1]` text and the code from its anchor's href),
votes (`cols[3]`) and margin (`cols[4]`). -/
structure LokWinRow where
  candidate_name : String
  constituency : String
  state_constituency_id : String
  votes : String
  margin : String
deriving DecidableEq, Repr

/-- A candidate dict accumulated by `_scrape_parties` (lines 153-161).
It carries no `status` key.  The `uuid` field is a fresh `uuid4` in the
source; no claim depends on it and it is omitted. -/
structure LokCandidate where
  party_id : Nat
  constituency : String
  candidate_name : String
  votes : String
  margin : String
  state_constituency_id : String
deriving DecidableEq, Repr

/-- A party record of `parties.json` (lines 180-186). -/
structure LokParty where
  party_name : String
  symbol : String
  total_seats : Nat
deriving DecidableEq, Repr

/-- Python `dict.get("status")` on a candidate dict built by
`_scrape_parties`: the dicts carry no `status` key, so this is `None`
for every record. -/
def lokCandidateStatus (_c : LokCandidate) : Option String := none

/-- Python `int(...)` applied to the digit-only party ids extracted from
hrefs (line 154: `"party_id": int(party_id)`); a non-digit id would raise
in Python and is modelled only for digit strings. -/
def pyIntNat (s : String) : Nat := digitsToNat (pyStripL s.data)

/-- Builds the candidate dict of line 153-161 from one win-results row. -/
def mkLokCandidate (pid : String) (r : LokWinRow) : LokCandidate :=
  { party_id := pyIntNat pid
  , constituency := r.constituency
  , candidate_name := r.candidate_name
  , votes := r.votes
  , margin := r.margin
  , state_constituency_id := r.state_constituency_id }

/-- Lookup in the `party_candidates` dict, modelled as an insertion-order
association list (`party_candidates.get(party_id, [])`, line 178). -/
def dictGet (d : List (String × List LokCandidate)) (k : String) : List LokCandidate :=
  match d.find? (fun kv => kv.1 == k) with
  | some kv => kv.2
  | none => []

/-- `party_candidates[party_id].append(cand)` with the
`if party_id not in party_candidates` initialisation (lines 150-152):
a fresh key is inserted at the end, an existing bucket is extended. -/
def dictAppend (d : List (String × List LokCandidate)) (k : String)
    (c : LokCandidate) : List (String × List LokCandidate) :=
  if d.any (fun kv => kv.1 == k) then
    d.map (fun kv => if kv.1 == k then (kv.1, kv.2 ++ [c]) else kv)
  else d ++ [(k, [c])]

/-- The per-party fetch loop of `_scrape_parties` (lines 111-163):
`pages pid` is the list of rows of `partywisewinresultState-{pid}.htm`
(empty when the fetch fails or the page has no table rows); each row is
appended to that party's bucket. -/
def buildPartyCandidates (details : List LokPartyDetail)
    (pages : String → List LokWinRow) : List (String × List LokCandidate) :=
  details.foldl
    (fun pc d =>
      (pages d.party_id).foldl
        (fun pc2 r => dictAppend pc2 d.party_id (mkLokCandidate d.party_id r)) pc)
    []

/-- The sort key of line 193: ascending in `(-total_seats, party_name)`,
i.e. descending seats with names breaking ties. -/
def lokPartyLE (a b : LokParty) : Prop :=
  b.total_seats < a.total_seats ∨
    (a.total_seats = b.total_seats ∧ a.party_name ≤ b.party_name)

instance : DecidableRel lokPartyLE := fun a b => by
  unfold lokPartyLE; infer_instance

instance : IsTotal LokParty lokPartyLE where
  total a b := by
    unfold lokPartyLE
    rcases Nat.lt_trichotomy a.total_seats b.total_seats with h | h | h
    · exact Or.inr (Or.inl h)
    · rcases le_total a.party_name b.party_name with hn | hn
      · exact Or.inl (Or.inr ⟨h, hn⟩)
      · exact Or.inr (Or.inr ⟨h.symm, hn⟩)
    · exact Or.inl (Or.inl h)

instance : IsTrans LokParty lokPartyLE where
  trans a b c hab hbc := by
    unfold lokPartyLE at *
    rcases hab with h1 | ⟨h1, h1n⟩ <;> rcases hbc with h2 | ⟨h2, h2n⟩
    · exact Or.inl (h2.trans h1)
    · exact Or.inl (h2 ▸ h1)
    · exact Or.inl (h1 ▸ h2)
    · exact Or.inr ⟨h1.trans h2, h1n.trans h2n⟩

/-- `self.parties_data.sort(key=lambda x: (-x["total_seats"], x["party_name"]))`
(line 193).  Python's `list.sort` is a stable sort; for a total preorder a
stable sort's output is unique, so insertion sort models it exactly. -/
def sortPartiesLok (l : List LokParty) : List LokParty :=
  List.insertionSort lokPartyLE l

/-- The party-record construction of lines 166-186 for one discovered
party: split the display name, count the party's bucket. -/
def mkLokParty (pc : List (String × List LokCandidate)) (d : LokPartyDetail) : LokParty :=
  let ns := splitNameSymbol d.name
  { party_name := pyStrip ns.1
  , symbol := pyStrip ns.2
  , total_seats := (dictGet pc d.party_id).length }

/-- `_scrape_parties` (lines 96-195): builds the `party_candidates`
buckets, the party list with per-bucket seat counts, flattens the buckets
into `self.candidates_data` in dict order (lines 189-190), and sorts the
party list.  Returns (sorted parties, accumulated candidates). -/
def scrapePartiesLok (details : List LokPartyDetail)
    (pages : String → List LokWinRow) : List LokParty × List LokCandidate :=
  let pc := buildPartyCandidates details pages
  let parties := details.map (mkLokParty pc)
  let candidates := pc.foldl (fun acc kv => acc ++ kv.2) []
  (sortPartiesLok parties, candidates)

/-- The summary fields of `_save_all_data` (lines 449-465) that the
claims concern: the winning party is the head of the (sorted) party list,
or `None`/`0` when the list is empty. -/
structure LokSummary where
  winning_party : Option String
  winning_party_seats : Nat
  total_parties : Nat
deriving DecidableEq, Repr

/-- Builds the summary record of `_save_all_data` from the accumulated,
sorted party list. -/
def mkSummary (parties : List LokParty) : LokSummary :=
  { winning_party := (parties.head?).map LokParty.party_name
  , winning_party_seats := ((parties.head?).map LokParty.total_seats).getD 0
  , total_parties := parties.length }

/-! ## Lemmas about the splitting helpers -/

theorem leadsWith_iff : ∀ (p l : List Char), leadsWith p l = true ↔ ∃ t, l = p ++ t
  | [], l => by simp [leadsWith]
  | _ :: _, [] => by simp [leadsWith]
  | c :: cs, d :: ds => by
    simp only [leadsWith, Bool.and_eq_true, beq_iff_eq, List.cons_append]
    constructor
    · rintro ⟨rfl, h⟩
      obtain ⟨t, rfl⟩ := (leadsWith_iff cs ds).mp h
      exact ⟨t, rfl⟩
    · rintro ⟨t, ht⟩
      injection ht with h1 h2
      exact ⟨h1.symm, (leadsWith_iff cs ds).mpr ⟨t, h2⟩⟩

theorem findSub_none (sep : List Char) :
    ∀ s, findSub sep s = none → ∀ b a, s ≠ b ++ sep ++ a := by
  intro s
  induction s with
  | nil =>
    intro h b a heq
    rw [findSub] at h
    split at h
    · exact Option.noConfusion h
    · rename_i hlw
      obtain ⟨rfl, rfl, rfl⟩ :
          b = [] ∧ sep = [] ∧ a = [] := by
        rcases List.append_eq_nil.mp ((List.append_eq_nil.mp heq.symm).1) with ⟨h1, h2⟩
        exact ⟨h1, h2, (List.append_eq_nil.mp heq.symm).2⟩
      exact hlw (by simp [leadsWith])
  | cons c t ih =>
    intro h b a heq
    rw [findSub] at h
    split at h
    · exact Option.noConfusion h
    · rename_i hlw
      cases hfs : findSub sep t with
      | some p => rw [hfs] at h; exact Option.noConfusion h
      | none =>
        cases b with
        | nil =>
          simp only [List.nil_append] at heq
          exact hlw ((leadsWith_iff sep (c :: t)).mpr ⟨a, heq⟩)
        | cons c' b' =>
          simp only [List.cons_append, List.append_assoc] at heq
          injection heq with h1 h2
          exact ih hfs b' a (by simpa [List.append_assoc] using h2)

theorem findSub_some (sep : List Char) :
    ∀ s b a, findSub sep s = some (b, a) →
      s = b ++ sep ++ a ∧ ∀ b' a', s = b' ++ sep ++ a' → b.length ≤ b'.length := by
  intro s
  induction s with
  | nil =>
    intro b a h
    rw [findSub] at h
    split at h
    · rename_i hlw
      obtain ⟨t, ht⟩ := (leadsWith_iff sep []).mp hlw
      obtain ⟨rfl, rfl⟩ := List.append_eq_nil.mp ht.symm
      injection h with h'
      injection h' with hb ha
      subst hb; subst ha
      exact ⟨rfl, fun _ _ _ => Nat.zero_le _⟩
    · exact Option.noConfusion h
  | cons c t ih =>
    intro b a h
    rw [findSub] at h
    split at h
    · rename_i hlw
      obtain ⟨t', ht'⟩ := (leadsWith_iff sep (c :: t)).mp hlw
      injection h with h'
      injection h' with hb ha
      subst hb
      constructor
      · rw [List.nil_append, ← ha, ht', List.drop_left]
      · intro _ _ _; exact Nat.zero_le _
    · rename_i hlw
      cases hfs : findSub sep t with
      | none => rw [hfs] at h; exact Option.noConfusion h
      | some p =>
        rw [hfs] at h
        obtain ⟨b0, a0⟩ := p
        injection h with h'
        injection h' with hb ha
        subst ha
        obtain ⟨heq, hmin⟩ := ih b0 a0 hfs
        constructor
        · rw [← hb, List.cons_append, List.cons_append, heq]
        · intro b' a' hb'
          cases b' with
          | nil =>
            exact absurd ((leadsWith_iff sep (c :: t)).mpr ⟨a', by simpa using hb'⟩) hlw
          | cons c' b'' =>
            simp only [List.cons_append, List.append_assoc] at hb'
            injection hb' with h1 h2
            have := hmin b'' a' (by simpa [List.append_assoc] using h2)
            subst hb
            simpa [List.length_cons] using Nat.succ_le_succ this

/-! ## Claim theorems -/

/-- C5: at the spec's own vector `"123456(+4,321)"` (margin span
`"(+4,321)"`), the code parses `total_votes = 123456` but leaves
`margin = 0`: the sanitisation removes `(`, `)`, `+`, `-` and spaces but
not the comma, so `"4,321".isdigit()` is false and the parsed margin is
discarded.  Unparsable text still yields `(0, 0)` without raising. -/
theorem c5_votes_margin_at_spec_vector :
    parseVotesMargin ("123456(+4,321)") (some ("(+4,321)")) = (123456, 0) ∧
    parseVotesMargin ("Uncontested") none = (0, 0) := by
  exact ⟨by decide, by decide⟩

/-- C2 counterexample: a candidate card whose status text is
`"Trailing"` yields a discovered record with `status = "TRAILING"`,
which is neither `"WON"` nor `"LOST"`. -/
theorem c2_counterexample :
    (parseCandBox [] ("S07") ("01")
        { figureImg := none
        , candInfo := some
            { statusDivs := some [{ text := "Trailing", span := none }]
            , nmePrty := some { h5 := some ("Some Person"), h6 := some ("Some Party") } } }).map
        VCand.status = some ("TRAILING") ∧
    ("TRAILING" : String) ≠ "WON" ∧ ("TRAILING" : String) ≠ "LOST" := by
  exact ⟨by decide, by decide, by decide⟩

/-- C2 amended: the status of every discovered candidate record is the
trimmed, uppercased source status text when the card has a status div
with at least one child, and the initial value `"UNKNOWN"` exactly when
it has none; unrecognized source text passes through uppercased instead
of being normalized to `"LOST"`. -/
theorem c2_status_passthrough :
    ∀ (parties : List VParty) (st cid : String) (b : CandBox) (cand : VCand),
      parseCandBox parties st cid b = some cand →
      (∃ info t sp rest, b.candInfo = some info ∧
          info.statusDivs = some ({ text := t, span := sp } :: rest) ∧
          cand.status = pyUpper (pyStrip t)) ∨
      ((∃ info, b.candInfo = some info ∧
          (info.statusDivs = none ∨ info.statusDivs = some [])) ∧
        cand.status = "UNKNOWN") := by
  intro parties st cid b cand h
  obtain ⟨img, ci⟩ := b
  cases ci with
  | none => exact absurd h (by simp [parseCandBox])
  | some info =>
    obtain ⟨sd, np⟩ := info
    cases np with
    | none => exact absurd h (by simp [parseCandBox])
    | some np' =>
      obtain ⟨h5, h6⟩ := np'
      cases h5 with
      | none => exact absurd h (by simp [parseCandBox])
      | some h5t =>
        cases h6 with
        | none => exact absurd h (by simp [parseCandBox])
        | some h6t =>
          simp only [parseCandBox, Option.some.injEq] at h
          subst h
          cases sd with
          | none =>
            exact Or.inr ⟨⟨⟨none, some ⟨some h5t, some h6t⟩⟩, rfl, Or.inl rfl⟩, rfl⟩
          | some l =>
            cases l with
            | nil =>
              exact Or.inr ⟨⟨⟨some [], some ⟨some h5t, some h6t⟩⟩, rfl, Or.inr rfl⟩, rfl⟩
            | cons d rest =>
              exact Or.inl ⟨⟨some (d :: rest), some ⟨some h5t, some h6t⟩⟩,
                d.text, d.span, rest, rfl, rfl, rfl⟩

/-- The concrete candidate card of the C2 witness. -/
def c2WitnessBox : CandBox :=
  { figureImg := none
  , candInfo := some
      { statusDivs := some [{ text := " won ", span := none }]
      , nmePrty := some { h5 := some ("A"), h6 := some ("B") } } }

/-- The record the C2 witness card parses to. -/
def c2WitnessCand : VCand :=
  { name := "A", party_id := "UNKNOWN", constituency_id := "01"
  , state_id := "S07", status := "WON", type := "MP"
  , image_url := none, total_votes := 0, margin := 0 }

/-- C2 witness: a concrete card with status text `" won "` produces a
record, and the amended statement holds for it. -/
theorem c2_status_passthrough_witness :
    parseCandBox [] ("S07") ("01") c2WitnessBox = some c2WitnessCand ∧
    ((∃ info t sp rest, c2WitnessBox.candInfo = some info ∧
        info.statusDivs = some ({ text := t, span := sp } :: rest) ∧
        c2WitnessCand.status = pyUpper (pyStrip t)) ∨
      ((∃ info, c2WitnessBox.candInfo = some info ∧
          (info.statusDivs = none ∨ info.statusDivs = some [])) ∧
        c2WitnessCand.status = "UNKNOWN")) :=
  ⟨by decide, c2_status_passthrough [] ("S07") ("01") c2WitnessBox c2WitnessCand (by decide)⟩

/-- C6 counterexample: `_discover_parties_details` in `lok_sabha.py`
raises `IndexError` on a display string without the `" - "` delimiter
instead of returning the whole string with an empty short name. -/
theorem c6_counterexample :
    lokDiscoverSplit ("Independent") = .error ("IndexError: list index out of range") := rfl

/-- C6 amended: the Vidhan Sabha resolver (also used at
`lok_sabha.py` lines 171-175) splits on the first occurrence of `" - "`
— the name part is a genuine decomposition of minimal length — and
returns the whole string plus an empty short name when the delimiter is
absent; but `_discover_parties_details` in `lok_sabha.py` raises
`IndexError` in that case. -/
theorem c6_split_first_occurrence (s : String) :
    ((∃ b a : List Char, s.data = b ++ dashSep ++ a) →
      s.data = (splitNameSymbol s).1.data ++ dashSep ++ (splitNameSymbol s).2.data ∧
      ∀ b a : List Char, s.data = b ++ dashSep ++ a →
        (splitNameSymbol s).1.data.length ≤ b.length) ∧
    ((¬ ∃ b a : List Char, s.data = b ++ dashSep ++ a) →
      splitNameSymbol s = (s, "") ∧
      lokDiscoverSplit s = .error ("IndexError: list index out of range")) := by
  constructor
  · rintro ⟨b, a, hba⟩
    cases hfs : findSub dashSep s.data with
    | none => exact absurd hba (findSub_none _ _ hfs b a)
    | some p =>
      obtain ⟨b0, a0⟩ := p
      obtain ⟨heq, hmin⟩ := findSub_some _ _ _ _ hfs
      have h1 : splitNameSymbol s = (⟨b0⟩, ⟨a0⟩) := by
        unfold splitNameSymbol; rw [hfs]
      refine ⟨?_, ?_⟩
      · rw [h1]; exact heq
      · intro b' a' h'
        rw [h1]
        exact hmin b' a' h'
  · intro hno
    cases hfs : findSub dashSep s.data with
    | some p =>
      obtain ⟨b0, a0⟩ := p
      exact absurd ⟨b0, a0, (findSub_some _ _ _ _ hfs).1⟩ hno
    | none =>
      constructor
      · unfold splitNameSymbol; rw [hfs]
      · unfold lokDiscoverSplit; rw [hfs]

/-- C6 witness: the amended statement applied to
`"Bharatiya Janata Party - BJP"` (delimiter present) and
`"Independent"` (delimiter absent). -/
theorem c6_split_witness :
    (∃ b a : List Char,
        ("Bharatiya Janata Party - BJP" : String).data = b ++ dashSep ++ a) ∧
    ("Bharatiya Janata Party - BJP" : String).data =
        (splitNameSymbol ("Bharatiya Janata Party - BJP")).1.data ++ dashSep ++
          (splitNameSymbol ("Bharatiya Janata Party - BJP")).2.data ∧
    (¬ ∃ b a : List Char, ("Independent" : String).data = b ++ dashSep ++ a) ∧
    splitNameSymbol ("Independent") = ("Independent", "") ∧
    lokDiscoverSplit ("Independent") = .error ("IndexError: list index out of range") := by
  have hex : ∃ b a : List Char,
      ("Bharatiya Janata Party - BJP" : String).data = b ++ dashSep ++ a :=
    ⟨("Bharatiya Janata Party" : String).data, ("BJP" : String).data, by decide⟩
  have hno : ¬ ∃ b a : List Char, ("Independent" : String).data = b ++ dashSep ++ a :=
    fun hc => by
      obtain ⟨b, a, h⟩ := hc
      exact findSub_none dashSep _ (by decide) b a h
  obtain ⟨h1, _⟩ := (c6_split_first_occurrence ("Bharatiya Janata Party - BJP")).1 hex
  obtain ⟨h2, h3⟩ := (c6_split_first_occurrence ("Independent")).2 hno
  exact ⟨hex, h1, hno, h2, h3⟩

/-- C8 counterexample: an index page without a `main` element makes
`_detect_state_info` raise `AttributeError`
(`soup.find("main").find(...)` on `None`) instead of falling back to the
sentinel values. -/
theorem c8_counterexample :
    detectStateInfo ("https://results.eci.gov.in/ResultAcGenFeb2025")
      (some { mainTag := none, table := none }) = .error ("AttributeError") := rfl

/-- C8 amended: the year is the leftmost `20dd` token of the base URL
(with the title's `h1` as fallback, then 2024); the state comes only from
page-title matching against the state table (the URL keyword matching is
commented out), with `("XX", "Unknown State")` as fallback.  The sentinel
fallback applies when the index fetch fails, when the `h2` title is
absent (the `h1` is then never read), or when nothing matches; but an
index page missing `main` or the page-title block, or missing the `h1`
while the `h2` is present and the year must come from the title, raises
`AttributeError`. -/
theorem c8_metadata_fallbacks :
    (∀ url : String, detectStateInfo url none =
        .ok (("XX", "Unknown State"), (extractYear url).getD 2024)) ∧
    (∀ (url t : String) (h1? : Option String) (tbl : Option (List PartyRow)),
      (extractYear url).isSome ∨ h1?.isSome →
      detectStateInfo url
          (some { mainTag := some { pageTitle := some { h2 := some t, h1 := h1? } }
                , table := tbl }) =
        .ok ((matchStateTable t).getD ("XX", "Unknown State"),
          (((extractYear url).orElse (fun _ => h1?.bind extractYear)).getD 2024))) ∧
    (∀ (url : String) (h1? : Option String) (tbl : Option (List PartyRow)),
      detectStateInfo url
          (some { mainTag := some { pageTitle := some { h2 := none, h1 := h1? } }
                , table := tbl }) =
        .ok (("XX", "Unknown State"), (extractYear url).getD 2024)) ∧
    (∀ (url : String) (tbl : Option (List PartyRow)),
      detectStateInfo url (some { mainTag := none, table := tbl }) =
        .error ("AttributeError")) ∧
    (∀ (url : String) (tbl : Option (List PartyRow)),
      detectStateInfo url (some { mainTag := some { pageTitle := none }, table := tbl }) =
        .error ("AttributeError")) ∧
    (∀ (url t : String) (tbl : Option (List PartyRow)),
      extractYear url = none →
      detectStateInfo url
          (some { mainTag := some { pageTitle := some { h2 := some t, h1 := none } }
                , table := tbl }) =
        .error ("AttributeError")) := by
  refine ⟨fun url => rfl, ?_, fun url h1? tbl => rfl, fun url tbl => rfl,
    fun url tbl => rfl, ?_⟩
  · intro url t h1? tbl h
    cases hy : extractYear url with
    | some y => simp [detectStateInfo, hy, Option.orElse]
    | none =>
      rw [hy] at h
      cases h1? with
      | none => simp at h
      | some s => simp [detectStateInfo, hy, Option.orElse]
  · intro url t tbl hy
    simp [detectStateInfo, hy]

/-- C8 witness: a URL without a year and a well-formed page title
matching Delhi with the year 2025 in the `h1`. -/
theorem c8_metadata_witness :
    ((extractYear ("u")).isSome ∨ (some ("Assembly Election 2025") : Option String).isSome) ∧
    detectStateInfo ("u")
        (some (IndexDoc.mk
          (some (MainBlock.mk (some (TitleBlock.mk
            (some ("Delhi Assembly")) (some ("Assembly Election 2025"))))))
          none)) = .ok (("DL", "Delhi"), 2025) := by
  have h := c8_metadata_fallbacks.2.1 ("u") ("Delhi Assembly")
    (some ("Assembly Election 2025")) none (Or.inr (by decide))
  exact ⟨Or.inr (by decide), by rw [h]; rfl⟩

/-- C3: when the index fetch fails, `scrape` does not degrade to an
empty run: `_discover_parties_details` and `_scrape_parties` bare-return
`None`, and `scrape` crashes with a `TypeError` at
`len(self.parties_data)` before any persistence of empty collections. -/
theorem c3_crash_on_index_fetch_failure :
    ∀ (url : String) (fp : String → Option ConstDoc) (fc : String → Option CandDoc),
      scrapeVidhan url none fp fc =
        .error ("TypeError: object of type NoneType has no len()") := by
  intro url fp fc
  rfl

/-- The dedup-set invariant of the constituency fold: the seen list is
exactly the keys of the accumulated records, and it has no duplicates. -/
theorem constFold_inv : ∀ (rows : List ConstRow) (acc : List VConst × List String),
    acc.2 = acc.1.map vconstKey → acc.2.Nodup →
    (rows.foldl constAccStep acc).2 = (rows.foldl constAccStep acc).1.map vconstKey ∧
      (rows.foldl constAccStep acc).2.Nodup := by
  intro rows
  induction rows with
  | nil => intro acc h1 h2; exact ⟨h1, h2⟩
  | cons r rs ih =>
    intro acc h1 h2
    rw [List.foldl_cons]
    have hstep : (constAccStep acc r).2 = (constAccStep acc r).1.map vconstKey ∧
        (constAccStep acc r).2.Nodup := by
      unfold constAccStep
      cases hco : constOfRow r with
      | none => exact ⟨h1, h2⟩
      | some c =>
        cases hc : acc.2.contains (vconstKey c) with
        | true => simp only [hc, if_true]; exact ⟨h1, h2⟩
        | false =>
          have hmem : vconstKey c ∉ acc.2 := by simpa using hc
          simp only [hc, Bool.false_eq_true, if_false]
          refine ⟨by simp [h1], ?_⟩
          exact List.Nodup.append h2 (List.nodup_singleton _)
            (by simpa [List.disjoint_singleton] using hmem)
    exact ih (constAccStep acc r) hstep.1 hstep.2

/-- C1 amended: within one call of `_discover_constituency_details` —
one party's results page — the composite keys of the discovered
constituencies are unique (the per-call dedup set, first occurrence
wins).  Across parties there is no deduplication; see the
counterexample. -/
theorem c1_per_party_keys_nodup (doc? : Option ConstDoc) :
    ((discoverConstituenciesVidhan doc?).map vconstKey).Nodup := by
  cases doc? with
  | none => simp [discoverConstituenciesVidhan]
  | some doc =>
    cases h : doc.tbodyRows with
    | none => simp [discoverConstituenciesVidhan, h]
    | some rows =>
      have hinv := constFold_inv rows ([], []) rfl List.nodup_nil
      simp only [discoverConstituenciesVidhan, h]
      rw [← hinv.1]
      exact hinv.2

/-- The index page of the C1 counterexample run: two parties, both of
whose win-results pages list the same constituency `S0701`. -/
def c1Idx : IndexDoc :=
  IndexDoc.mk
    (some (MainBlock.mk (some (TitleBlock.mk (some ("Delhi")) (some ("2025"))))))
    (some [ PartyRow.mk none
          , PartyRow.mk (some (PartyCols.mk (some ("Aam Aadmi Party - AAP")) ("")
              ("partywisewinresult-582S07.htm") ("22")))
          , PartyRow.mk (some (PartyCols.mk (some ("Bharatiya Janata Party - BJP")) ("")
              ("partywisewinresult-369S07.htm") ("48"))) ])

/-- Party-page fetches of the C1 counterexample run: both parties' pages
carry a link to the same constituency. -/
def c1FetchParty : String → Option ConstDoc := fun k =>
  if k == "582S07" || k == "369S07" then
    some (ConstDoc.mk (some [ConstRow.mk
      (some (ConstATag.mk ("New Delhi") (some ("candidateswise-S0701.htm")))) ("")]))
  else none

/-- Candidate-page fetches of the C1 counterexample run: none succeed
(candidates play no role in the claim). -/
def c1FetchCand : String → Option CandDoc := fun _ => none

/-- C1 counterexample: a run in which the same constituency is reachable
from two parties' results pages writes its composite key twice to the
accumulated `constituencies.json` — deduplication is per party, not
global. -/
theorem c1_counterexample :
    (scrapeVidhan ("https://results.eci.gov.in/ResultAcGenFeb2025") (some c1Idx)
        c1FetchParty c1FetchCand).toOption.map
      (fun r => r.constituenciesFile.map vconstKey) = some ["S0701", "S0701"] ∧
    ¬ (["S0701", "S0701"] : List String).Nodup := by
  exact ⟨by decide, by decide⟩

/-- `Except` success test (Python: the call returns instead of raising). -/
def exceptIsOk : Except String VidhanRun → Bool
  | .ok _ => true
  | .error _ => false

/-- C7: a fetch failure on exactly one constituency's candidate page is
unit-local.  The candidate stage run with a fetch that fails exactly on
`c0`'s composite key collects precisely the candidates of every
constituency with a different key, logs the warning for `c0` whenever it
is visited, and candidate-page fetch outcomes can never turn a completing
run of `scrape` into a raising one (or conversely). -/
theorem c7_unit_local_candidate_failure :
    ∀ (parties : List VParty) (f : String → Option CandDoc) (cs : List VConst) (c0 : VConst),
      (candidatesStage parties
          (fun k => if k == vconstKey c0 then none else f k) cs).1 =
        (candidatesStage parties f (cs.filter (fun c => !(vconstKey c == vconstKey c0)))).1 ∧
      (c0 ∈ cs →
        ("Could not fetch constituency page for " ++ c0.name) ∈
          (candidatesStage parties
            (fun k => if k == vconstKey c0 then none else f k) cs).2) ∧
      (∀ (url : String) (idx : Option IndexDoc) (fp : String → Option ConstDoc)
          (fc fc' : String → Option CandDoc),
        exceptIsOk (scrapeVidhan url idx fp fc) =
          exceptIsOk (scrapeVidhan url idx fp fc')) := by
  intro parties f cs c0
  refine ⟨?_, ?_, ?_⟩
  · induction cs with
    | nil => rfl
    | cons c cs ih =>
      cases hk : (vconstKey c == vconstKey c0) with
      | true =>
        have hkey : c.state_id ++ c.id = vconstKey c0 := eq_of_beq hk
        simp only [candidatesStage, List.filter_cons, hk, Bool.not_true, if_false,
          hkey, beq_self_eq_true, if_true, discoverCandidatesVidhan, List.nil_append]
        exact ih
      | false =>
        have hkey : ¬ ((c.state_id ++ c.id) == vconstKey c0) = true := by
          simpa [vconstKey] using hk
        simp only [candidatesStage, List.filter_cons, hk, Bool.not_false, if_true,
          Bool.ite_eq_true_distrib]
        rw [if_neg hkey]
        rw [ih]
  · intro hmem
    induction cs with
    | nil => exact absurd hmem (List.not_mem_nil c0)
    | cons c cs ih =>
      rcases List.mem_cons.mp hmem with rfl | hmem'
      · have hkey : ((c0.state_id ++ c0.id) == vconstKey c0) = true := by
          simp [vconstKey]
        simp only [candidatesStage, hkey, if_true, discoverCandidatesVidhan]
        exact List.mem_append_left _ (List.mem_singleton_self _)
      · have := ih hmem'
        simp only [candidatesStage]
        exact List.mem_append_right _ this
  · intro url idx fp fc fc'
    cases hd : detectStateInfo url idx with
    | error e => simp [scrapeVidhan, hd, exceptIsOk]
    | ok st =>
      cases hp : scrapePartiesStepV (discoverPartiesVidhan idx).1 with
      | none => simp [scrapeVidhan, hd, hp, exceptIsOk]
      | some parties' => simp [scrapeVidhan, hd, hp, exceptIsOk]

/-- C7 witness: two constituencies sharing a state, the fetch failing on
the first; the stage collects only the second's candidates and logs the
warning for the first. -/
theorem c7_witness :
    (⟨"01", "New Delhi", "S07"⟩ : VConst) ∈
        ([⟨"01", "New Delhi", "S07"⟩, ⟨"02", "Okhla", "S07"⟩] : List VConst) ∧
    ("Could not fetch constituency page for " ++ (⟨"01", "New Delhi", "S07"⟩ : VConst).name) ∈
      (candidatesStage []
        (fun k => if k == vconstKey ⟨"01", "New Delhi", "S07"⟩ then none
                  else (fun _ => some (CandDoc.mk [])) k)
        [⟨"01", "New Delhi", "S07"⟩, ⟨"02", "Okhla", "S07"⟩]).2 :=
  ⟨by decide,
    (c7_unit_local_candidate_failure [] (fun _ => some (CandDoc.mk []))
      [⟨"01", "New Delhi", "S07"⟩, ⟨"02", "Okhla", "S07"⟩]
      ⟨"01", "New Delhi", "S07"⟩).2.1 (by decide)⟩

/-- The discovered parties of the C10 dangling-reference instance. -/
def c10Parties : List VParty :=
  [{ id := "369", name := "Bharatiya Janata Party", short_name := "BJP", symbol := "" }]

/-- A candidate card naming a party that was never discovered. -/
def c10Box : CandBox :=
  { figureImg := none
  , candInfo := some
      { statusDivs := some [{ text := "won", span := none }]
      , nmePrty := some { h5 := some ("X Y"), h6 := some ("No Such Party") } } }

/-- C10: `_get_party_id_by_name` returns `"UNKNOWN"` for an empty name;
returns `"UNKNOWN"` when no discovered party's trimmed, lowercased full
or short name equals the trimmed, lowercased candidate party name; and
returns the id of a matching discovered party whenever one exists.  A
discovered candidate whose party matches nothing is persisted with
`party_id = "UNKNOWN"`, which refers to no party in the collection. -/
theorem c10_party_id_resolution :
    (∀ ps : List VParty, getPartyIdByName ps ("") = "UNKNOWN") ∧
    (∀ (ps : List VParty) (nm : String),
      (∀ p ∈ ps, ¬ (pyLower (pyStrip p.name) = pyLower (pyStrip nm) ∨
                    pyLower (pyStrip p.short_name) = pyLower (pyStrip nm))) →
      getPartyIdByName ps nm = "UNKNOWN") ∧
    (∀ (ps : List VParty) (nm : String) (p : VParty),
      nm.data ≠ [] → p ∈ ps →
      (pyLower (pyStrip p.name) = pyLower (pyStrip nm) ∨
        pyLower (pyStrip p.short_name) = pyLower (pyStrip nm)) →
      ∃ q ∈ ps,
        (pyLower (pyStrip q.name) = pyLower (pyStrip nm) ∨
          pyLower (pyStrip q.short_name) = pyLower (pyStrip nm)) ∧
        getPartyIdByName ps nm = q.id) ∧
    ((parseCandBox c10Parties ("S07") ("01") c10Box).map VCand.party_id =
        some ("UNKNOWN") ∧
      ¬ ("UNKNOWN" ∈ c10Parties.map VParty.id)) := by
  refine ⟨fun ps => rfl, ?_, ?_, by decide, by decide⟩
  · intro ps nm hnone
    unfold getPartyIdByName
    cases hnm : nm.data.isEmpty with
    | true => simp [hnm]
    | false =>
      have hfind : ps.find? (partyMatches (pyLower (pyStrip nm))) = none := by
        apply List.find?_eq_none.mpr
        intro p hp
        have := hnone p hp
        simp only [partyMatches, Bool.or_eq_true, beq_iff_eq]
        tauto
      simp [hnm, hfind]
  · intro ps nm p hnm hp hmatch
    have hfind : (ps.find? (partyMatches (pyLower (pyStrip nm)))).isSome := by
      apply List.find?_isSome.mpr
      refine ⟨p, hp, ?_⟩
      simp only [partyMatches, Bool.or_eq_true, beq_iff_eq]
      tauto
    obtain ⟨q, hq⟩ := Option.isSome_iff_exists.mp hfind
    refine ⟨q, List.mem_of_find?_eq_some hq, ?_, ?_⟩
    · have := List.find?_some hq
      simp only [partyMatches, Bool.or_eq_true, beq_iff_eq] at this
      tauto
    · unfold getPartyIdByName
      have hnm' : nm.data.isEmpty = false := by
        cases h : nm.data with
        | nil => exact absurd h hnm
        | cons a l => simp [h]
      simp [hnm', hq]

/-- C10 witness: looking up `" bjp "` (mixed trim/case) against the
discovered parties resolves to the BJP's id. -/
theorem c10_party_id_resolution_witness :
    (" bjp " : String).data ≠ [] ∧
    ({ id := "369", name := "Bharatiya Janata Party", short_name := "BJP"
     , symbol := "" } : VParty) ∈ c10Parties ∧
    (∃ q ∈ c10Parties,
      (pyLower (pyStrip q.name) = pyLower (pyStrip (" bjp ")) ∨
        pyLower (pyStrip q.short_name) = pyLower (pyStrip (" bjp "))) ∧
      getPartyIdByName c10Parties (" bjp ") = q.id) :=
  ⟨by decide, by decide,
    c10_party_id_resolution.2.2.1 c10Parties (" bjp ")
      { id := "369", name := "Bharatiya Janata Party", short_name := "BJP", symbol := "" }
      (by decide) (by decide) (Or.inr (by decide))⟩

/-- C9: after the seat-descending sort, the summary's winning party is a
party of the collection whose seat count is maximal and
`winning_party_seats` is that count; an empty collection yields
`None`/`0`. -/
theorem c9_winning_party :
    ∀ ps : List LokParty,
      (ps = [] → (mkSummary (sortPartiesLok ps)).winning_party = none ∧
        (mkSummary (sortPartiesLok ps)).winning_party_seats = 0) ∧
      (ps ≠ [] → ∃ p ∈ ps,
        (mkSummary (sortPartiesLok ps)).winning_party = some p.party_name ∧
        (mkSummary (sortPartiesLok ps)).winning_party_seats = p.total_seats ∧
        ∀ q ∈ ps, q.total_seats ≤ p.total_seats) := by
  intro ps
  constructor
  · rintro rfl
    exact ⟨rfl, rfl⟩
  · intro hne
    have hperm : List.Perm (sortPartiesLok ps) ps := List.perm_insertionSort _ _
    have hsorted : List.Sorted lokPartyLE (sortPartiesLok ps) :=
      List.sorted_insertionSort _ _
    cases hs : sortPartiesLok ps with
    | nil =>
      rw [hs] at hperm
      exact absurd hperm.symm.eq_nil hne
    | cons p t =>
      rw [hs] at hperm hsorted
      refine ⟨p, hperm.mem_iff.mp (List.mem_cons_self p t), rfl, rfl, ?_⟩
      · intro q hq
        rcases List.mem_cons.mp (hperm.mem_iff.mpr hq) with rfl | hq'
        · exact le_refl _
        · rcases List.rel_of_sorted_cons hsorted q hq' with h | ⟨h, _⟩
          · exact le_of_lt h
          · exact le_of_eq h.symm

/-- C9 witness: of two parties with 1 and 3 seats, the summary names the
3-seat party and reports 3 seats. -/
theorem c9_winning_party_witness :
    ([⟨"A", "", 1⟩, ⟨"B", "", 3⟩] : List LokParty) ≠ [] ∧
    (∃ p ∈ ([⟨"A", "", 1⟩, ⟨"B", "", 3⟩] : List LokParty),
      (mkSummary (sortPartiesLok [⟨"A", "", 1⟩, ⟨"B", "", 3⟩])).winning_party =
        some p.party_name ∧
      (mkSummary (sortPartiesLok [⟨"A", "", 1⟩, ⟨"B", "", 3⟩])).winning_party_seats =
        p.total_seats ∧
      ∀ q ∈ ([⟨"A", "", 1⟩, ⟨"B", "", 3⟩] : List LokParty),
        q.total_seats ≤ p.total_seats) :=
  ⟨by decide, (c9_winning_party [⟨"A", "", 1⟩, ⟨"B", "", 3⟩]).2 (by decide)⟩

/-- The single discovered party of the C4 instance. -/
def c4Dets : List LokPartyDetail :=
  [{ name := "Bharatiya Janata Party - BJP", short_name := "BJP"
   , seats_won := "240", party_id := "1" }]

/-- The single win-results row of the C4 instance. -/
def c4Pages : String → List LokWinRow := fun k =>
  if k == "1" then
    [{ candidate_name := "Narendra Modi", constituency := "Varanasi"
     , state_constituency_id := "S2477", votes := "612970", margin := "152513" }]
  else []

/-- C4 counterexample: the persisted party carries `total_seats = 1`,
but the accumulated candidate records carry no `status` key at all, so
the count of candidates with `status == WON` and matching `party_id`
is `0`, not `1`. -/
theorem c4_counterexample :
    (scrapePartiesLok c4Dets c4Pages).1.map LokParty.total_seats = [1] ∧
    List.countP
        (fun c => lokCandidateStatus c == some ("WON") && c.party_id == pyIntNat ("1"))
        (scrapePartiesLok c4Dets c4Pages).2 = 0 ∧
    (1 : Nat) ≠ 0 := by
  exact ⟨by decide, by decide, by decide⟩

theorem foldl_append_eq_join :
    ∀ (pc : List (String × List LokCandidate)) (acc : List LokCandidate),
      pc.foldl (fun a kv => a ++ kv.2) acc = acc ++ (pc.map Prod.snd).flatten := by
  intro pc
  induction pc with
  | nil => intro acc; simp
  | cons kv rest ih => intro acc; simp [ih]

/-- Counting matching party ids over the flattened buckets equals the
length of the party's own bucket, provided every bucket is tagged with
its key's numeric id, keys are unique, and no other key collides with
`k` numerically. -/
theorem countP_flatten (k : String) :
    ∀ pc : List (String × List LokCandidate),
      (∀ kv ∈ pc, ∀ c ∈ kv.2, c.party_id = pyIntNat kv.1) →
      (∀ kv ∈ pc, kv.1 ≠ k → pyIntNat kv.1 ≠ pyIntNat k) →
      (pc.map Prod.fst).Nodup →
      List.countP (fun c => c.party_id == pyIntNat k) ((pc.map Prod.snd).flatten) =
        (dictGet pc k).length := by
  intro pc
  induction pc with
  | nil => intro _ _ _; simp [dictGet]
  | cons kv rest ih =>
    intro hpid hsep hkeys
    have hpid' : ∀ kv' ∈ rest, ∀ c ∈ kv'.2, c.party_id = pyIntNat kv'.1 :=
      fun kv' h => hpid kv' (List.mem_cons_of_mem _ h)
    have hsep' : ∀ kv' ∈ rest, kv'.1 ≠ k → pyIntNat kv'.1 ≠ pyIntNat k :=
      fun kv' h => hsep kv' (List.mem_cons_of_mem _ h)
    rw [List.map_cons] at hkeys
    have hkeys' : (rest.map Prod.fst).Nodup := hkeys.of_cons
    simp only [List.map_cons, List.flatten_cons, List.countP_append]
    cases hk : (kv.1 == k) with
    | true =>
      have hkk : kv.1 = k := eq_of_beq hk
      have hcount : List.countP (fun c => c.party_id == pyIntNat k) kv.2 = kv.2.length := by
        apply List.countP_eq_length.mpr
        intro c hc
        have := hpid kv (List.mem_cons_self _ _) c hc
        simp [this, hkk]
      have hnotin : k ∉ rest.map Prod.fst := by
        rw [← hkk]
        exact (List.nodup_cons.mp hkeys).1
      have hgetrest : dictGet rest k = [] := by
        unfold dictGet
        rw [List.find?_eq_none.mpr]
        intro kv' hkv'
        have : kv'.1 ≠ k := fun he => hnotin (he ▸ List.mem_map_of_mem Prod.fst hkv')
        simpa using this
      have hrest := ih hpid' hsep' hkeys'
      rw [hcount, hrest, hgetrest]
      simp [dictGet, hk]
    | false =>
      have hkk : kv.1 ≠ k := by simpa using hk
      have hcount : List.countP (fun c => c.party_id == pyIntNat k) kv.2 = 0 := by
        apply List.countP_eq_zero.mpr
        intro c hc
        have hc' := hpid kv (List.mem_cons_self _ _) c hc
        have hne := hsep kv (List.mem_cons_self _ _) hkk
        simp [hc', hne]
      have hrest := ih hpid' hsep' hkeys'
      rw [hcount, hrest]
      simp [dictGet, hk]

/-- `dictAppend` either leaves the key list unchanged (existing bucket)
or appends the fresh key at the end. -/
theorem dictAppend_keys (pc : List (String × List LokCandidate)) (k : String)
    (c : LokCandidate) :
    (dictAppend pc k c).map Prod.fst = pc.map Prod.fst ∨
      ((dictAppend pc k c).map Prod.fst = pc.map Prod.fst ++ [k] ∧
        k ∉ pc.map Prod.fst) := by
  unfold dictAppend
  by_cases ha : pc.any (fun kv => kv.1 == k) = true
  · rw [if_pos ha]
    left
    rw [List.map_map]
    apply List.map_congr_left
    intro kv _
    by_cases hk : kv.1 = k <;> simp [hk]
  · rw [if_neg ha]
    right
    refine ⟨by simp, ?_⟩
    intro hmem
    obtain ⟨kv, hkv, hk⟩ := List.mem_map.mp hmem
    exact ha (List.any_eq_true.mpr ⟨kv, hkv, by simp [hk]⟩)

/-- `dictAppend` preserves the per-bucket party-id tagging when the
appended candidate is tagged with the target key. -/
theorem dictAppend_pid (pc : List (String × List LokCandidate)) (k : String)
    (c : LokCandidate)
    (hpid : ∀ kv ∈ pc, ∀ x ∈ kv.2, x.party_id = pyIntNat kv.1)
    (hc : c.party_id = pyIntNat k) :
    ∀ kv ∈ dictAppend pc k c, ∀ x ∈ kv.2, x.party_id = pyIntNat kv.1 := by
  intro kv hkv x hx
  unfold dictAppend at hkv
  by_cases ha : pc.any (fun kv => kv.1 == k) = true
  · rw [if_pos ha] at hkv
    obtain ⟨kv0, hkv0, hf⟩ := List.mem_map.mp hkv
    by_cases hk0 : (kv0.1 == k) = true
    · rw [if_pos hk0] at hf
      subst hf
      rcases List.mem_append.mp hx with hx' | hx'
      · exact hpid kv0 hkv0 x hx'
      · rw [List.mem_singleton.mp hx', hc, eq_of_beq hk0]
    · rw [if_neg hk0] at hf
      subst hf
      exact hpid kv0 hkv0 x hx
  · rw [if_neg ha] at hkv
    rcases List.mem_append.mp hkv with h | h
    · exact hpid kv h x hx
    · rw [List.mem_singleton.mp h] at hx ⊢
      rw [List.mem_singleton.mp hx]
      exact hc

/-- The three bucket invariants are preserved by the whole inner row
loop of `_scrape_parties` for one party. -/
theorem rowsFold_inv (S : List String) (k : String) (hkS : k ∈ S) :
    ∀ (rows : List LokWinRow) (pc : List (String × List LokCandidate)),
      (∀ kv ∈ pc, ∀ x ∈ kv.2, x.party_id = pyIntNat kv.1) →
      (pc.map Prod.fst).Nodup →
      (∀ x ∈ pc.map Prod.fst, x ∈ S) →
      (∀ kv ∈ rows.foldl (fun pc2 r => dictAppend pc2 k (mkLokCandidate k r)) pc,
          ∀ x ∈ kv.2, x.party_id = pyIntNat kv.1) ∧
        ((rows.foldl (fun pc2 r => dictAppend pc2 k (mkLokCandidate k r)) pc).map
            Prod.fst).Nodup ∧
        (∀ x ∈ (rows.foldl (fun pc2 r => dictAppend pc2 k (mkLokCandidate k r)) pc).map
            Prod.fst, x ∈ S) := by
  intro rows
  induction rows with
  | nil => intro pc h1 h2 h3; exact ⟨h1, h2, h3⟩
  | cons r rs ih =>
    intro pc h1 h2 h3
    rw [List.foldl_cons]
    apply ih
    · exact dictAppend_pid pc k (mkLokCandidate k r) h1 rfl
    · rcases dictAppend_keys pc k (mkLokCandidate k r) with hk | ⟨hk, hnot⟩
      · rw [hk]; exact h2
      · rw [hk]
        exact List.Nodup.append h2 (List.nodup_singleton _)
          (by simpa [List.disjoint_singleton] using hnot)
    · rcases dictAppend_keys pc k (mkLokCandidate k r) with hk | ⟨hk, _⟩
      · rw [hk]; exact h3
      · rw [hk]
        intro x hx
        rcases List.mem_append.mp hx with h | h
        · exact h3 x h
        · rw [List.mem_singleton.mp h]; exact hkS

/-- The three bucket invariants hold for the full
`buildPartyCandidates` dictionary, relative to the discovered party ids. -/
theorem build_inv (details : List LokPartyDetail) (pages : String → List LokWinRow) :
    (∀ kv ∈ buildPartyCandidates details pages, ∀ x ∈ kv.2,
        x.party_id = pyIntNat kv.1) ∧
      ((buildPartyCandidates details pages).map Prod.fst).Nodup ∧
      (∀ x ∈ (buildPartyCandidates details pages).map Prod.fst,
        x ∈ details.map LokPartyDetail.party_id) := by
  unfold buildPartyCandidates
  suffices h : ∀ (ds : List LokPartyDetail) (pc : List (String × List LokCandidate)),
      (∀ d ∈ ds, d.party_id ∈ details.map LokPartyDetail.party_id) →
      (∀ kv ∈ pc, ∀ x ∈ kv.2, x.party_id = pyIntNat kv.1) →
      (pc.map Prod.fst).Nodup →
      (∀ x ∈ pc.map Prod.fst, x ∈ details.map LokPartyDetail.party_id) →
      (∀ kv ∈ ds.foldl (fun pc d => (pages d.party_id).foldl
          (fun pc2 r => dictAppend pc2 d.party_id (mkLokCandidate d.party_id r)) pc) pc,
        ∀ x ∈ kv.2, x.party_id = pyIntNat kv.1) ∧
      ((ds.foldl (fun pc d => (pages d.party_id).foldl
          (fun pc2 r => dictAppend pc2 d.party_id (mkLokCandidate d.party_id r)) pc) pc).map
        Prod.fst).Nodup ∧
      (∀ x ∈ (ds.foldl (fun pc d => (pages d.party_id).foldl
          (fun pc2 r => dictAppend pc2 d.party_id (mkLokCandidate d.party_id r)) pc) pc).map
        Prod.fst, x ∈ details.map LokPartyDetail.party_id) by
    exact h details [] (fun d hd => List.mem_map_of_mem _ hd)
      (fun kv hkv => absurd hkv (List.not_mem_nil kv))
      List.nodup_nil
      (fun x hx => absurd hx (by simp))
  intro ds
  induction ds with
  | nil => intro pc _ h1 h2 h3; exact ⟨h1, h2, h3⟩
  | cons d rest ih =>
    intro pc hds h1 h2 h3
    rw [List.foldl_cons]
    have hstep := rowsFold_inv (details.map LokPartyDetail.party_id) d.party_id
      (hds d (List.mem_cons_self _ _)) (pages d.party_id) pc h1 h2 h3
    exact ih _ (fun d' hd' => hds d' (List.mem_cons_of_mem _ hd'))
      hstep.1 hstep.2.1 hstep.2.2

/-- C4 amended: when the discovered party ids are numerically distinct,
every persisted party record's `total_seats` equals the number of
accumulated candidate records whose `party_id` equals that party's id —
with no status filter: every row of a party's win-results page is
counted, and the records carry no `status` field at all. -/
theorem c4_seats_count_without_status :
    ∀ (details : List LokPartyDetail) (pages : String → List LokWinRow),
      (details.map (fun d => pyIntNat d.party_id)).Nodup →
      ∀ p ∈ (scrapePartiesLok details pages).1,
        ∃ d ∈ details,
          p.party_name = pyStrip (splitNameSymbol d.name).1 ∧
          p.total_seats = List.countP
            (fun c => c.party_id == pyIntNat d.party_id)
            (scrapePartiesLok details pages).2 := by
  intro details pages hnodup p hp
  have hp2 : p ∈ details.map (mkLokParty (buildPartyCandidates details pages)) :=
    (List.mem_insertionSort lokPartyLE).mp hp
  obtain ⟨d, hd, hpd⟩ := List.mem_map.mp hp2
  subst hpd
  refine ⟨d, hd, rfl, ?_⟩
  have hinv := build_inv details pages
  have hsep : ∀ kv ∈ buildPartyCandidates details pages, kv.1 ≠ d.party_id →
      pyIntNat kv.1 ≠ pyIntNat d.party_id := by
    intro kv hkv hne he
    have h1 : kv.1 ∈ details.map LokPartyDetail.party_id :=
      hinv.2.2 kv.1 (List.mem_map_of_mem Prod.fst hkv)
    have h2 : d.party_id ∈ details.map LokPartyDetail.party_id :=
      List.mem_map_of_mem _ hd
    have hnd : ((details.map LokPartyDetail.party_id).map pyIntNat).Nodup := by
      rw [List.map_map]
      exact hnodup
    exact hne (List.inj_on_of_nodup_map hnd h1 h2 he)
  have hflat : (scrapePartiesLok details pages).2 =
      ((buildPartyCandidates details pages).map Prod.snd).flatten := by
    show (buildPartyCandidates details pages).foldl (fun a kv => a ++ kv.2) [] = _
    rw [foldl_append_eq_join]
    simp
  rw [hflat, countP_flatten d.party_id _ hinv.1 hsep hinv.2.1]
  rfl

/-- C4 witness: the amended statement at the concrete single-party run
of the counterexample. -/
theorem c4_seats_witness :
    (c4Dets.map (fun d => pyIntNat d.party_id)).Nodup ∧
    (∀ p ∈ (scrapePartiesLok c4Dets c4Pages).1,
      ∃ d ∈ c4Dets,
        p.party_name = pyStrip (splitNameSymbol d.name).1 ∧
        p.total_seats = List.countP
          (fun c => c.party_id == pyIntNat d.party_id)
          (scrapePartiesLok c4Dets c4Pages).2) :=
  ⟨by decide, c4_seats_count_without_status c4Dets c4Pages (by decide)⟩
